import Mathlib

/-!
Verification of the session orchestration core of the codex-agent-management
repository.  The definitions below are shallow embeddings of the TypeScript
source (src/sessionManager.ts, reproduced in src/src/websocket.ts of the
source drop, and src/utils/codex.ts, reproduced in src/unnamed/part_000).
Pure helpers become Lean functions; the stateful SessionManager methods
become explicit state-passing functions on a ManagerState record; the
cooperative concurrency of the run procedure and of the admission
semaphore is modelled by small-step transition relations whose steps are
exactly the synchronous segments between the await suspension points of
the source.
-/

/-- Runtime JSON values as produced by the JS builtin JSON.parse.  Numbers
are modelled as integers (no numeric field of the agent output schema is
fractional); object fields keep insertion order, keys are unique. -/
inductive Json where
  | null : Json
  | bool : Bool → Json
  | num : Int → Json
  | str : String → Json
  | arr : List Json → Json
  | obj : List (String × Json) → Json

/-- Field lookup on a list of JSON object fields (first match; keys of a
parsed JSON object are unique). -/
def lookupField : List (String × Json) → String → Option Json
  | [], _ => none
  | (k, v) :: rest, key => if k == key then some v else lookupField rest key

/-- JS property read value.field on a parsed JSON value: none models the
JS result undefined (absent key, or a read on a non-object). -/
def jget : Json → String → Option Json
  | Json.obj fields, key => lookupField fields key
  | _, _ => none

/-- JS operator (key in value): property presence.  On a parsed JSON value
this is key membership for objects and false otherwise. -/
def jhasKey : Json → String → Bool
  | Json.obj fields, key => (lookupField fields key).isSome
  | _, _ => false

/-- JS truthiness of a parsed JSON value: null, false, 0 and the empty
string are falsy; every array and object (even empty) is truthy. -/
def Json.truthy : Json → Bool
  | Json.null => false
  | Json.bool b => b
  | Json.num n => n != 0
  | Json.str s => s.length != 0
  | Json.arr _ => true
  | Json.obj _ => true

/-- String payload of an optional JSON value, when it is a string. -/
def jStrVal : Option Json → Option String
  | some (Json.str s) => some s
  | _ => none

/-- Embedding of isAgentGeneratedFile from src/utils/codex.ts: value must
be object-typed (JS arrays are also typeof object), path must be a
non-empty string, content and description must each be absent, null or a
string. -/
def isAgentGeneratedFile (value : Json) : Bool :=
  match value with
  | Json.obj _ | Json.arr _ =>
    (match jget value "path" with
      | some (Json.str s) => s.length != 0
      | _ => false)
    && (match jget value "content" with
      | none => true
      | some Json.null => true
      | some (Json.str _) => true
      | some _ => false)
    && (match jget value "description" with
      | none => true
      | some Json.null => true
      | some (Json.str _) => true
      | some _ => false)
  | _ => false

/-- Embedding of isAgentStructuredOutput from src/utils/codex.ts.  Note
that the source checks only the listed fields; it does not reject extra
properties, so a parsed value may carry additional keys. -/
def isAgentStructuredOutput (value : Json) : Bool :=
  match value with
  | Json.obj _ | Json.arr _ =>
    (match jget value "inferenceStatus" with
      | some (Json.str s) => s == "solved" || s == "awaiting_hint" || s == "failed"
      | _ => false)
    && (match jget value "summary" with
      | some (Json.str s) => s.length != 0
      | _ => false)
    && jhasKey value "flag"
    && (match jget value "flag" with
      | some Json.null => true
      | some (Json.str _) => true
      | _ => false)
    && jhasKey value "solveCode"
    && (match jget value "solveCode" with
      | some Json.null => true
      | some (Json.str _) => true
      | _ => false)
    && jhasKey value "writeUp"
    && (match jget value "writeUp" with
      | some Json.null => true
      | some (Json.str _) => true
      | _ => false)
    && jhasKey value "solutionFiles"
    && (match jget value "solutionFiles" with
      | some Json.null => true
      | some (Json.arr xs) => xs.all isAgentGeneratedFile
      | _ => false)
    && jhasKey value "nextSteps"
    && (match jget value "nextSteps" with
      | some Json.null => true
      | some (Json.arr xs) => xs.all (fun x => match x with
          | Json.str _ => true
          | _ => false)
      | _ => false)
  | _ => false

/-- Embedding of parseAgentStructuredOutput from src/utils/codex.ts.  The
JSON.parse builtin is external JS; its outcome on the raw text is the
argument raw, with none modelling a parse exception (the catch branch).
The source returns the raw parsed object itself, merely type-guarded, so
the result keeps every property of the parsed JSON. -/
def parseAgentStructuredOutput (raw : Option Json) : Option Json :=
  match raw with
  | none => none
  | some parsed => if isAgentStructuredOutput parsed then some parsed else none

/-- Embedding of clampConcurrency from src/sessionManager.ts.  The
argument is the result of the JS call Number.parseInt on the environment
string, with none modelling NaN: NaN or a value below 1 yields the
default 4. -/
def clampConcurrency (parsed : Option Int) : Nat :=
  match parsed with
  | none => 4
  | some p => if p < 1 then 4 else p.toNat

/-- Embedding of truncate from src/sessionManager.ts (JS slice counts
UTF-16 units, Lean take counts characters; every string evaluated in this
development is ASCII, where both agree). -/
def truncate (value : String) (len : Nat) : String :=
  if value.length ≤ len then value else value.take len ++ "…"

/-! ## Session store data model (src/sessionManager.ts) -/

/-- The SessionStatus union type. -/
inductive SessionStatus where
  | pending | running | awaiting_hint | completed | cancelled | error
deriving DecidableEq, Repr

/-- The level field of a session event. -/
inductive EventLevel where
  | info | task | warning | error
deriving DecidableEq, Repr

/-- A SessionEvent record: one entry of the per-session event log. -/
structure SessionEvent where
  id : String
  timestamp : Nat
  level : EventLevel
  message : String
  details : Option (List (String × Json))

/-- The problem metadata supplied at session creation. -/
structure ProblemMetadata where
  category : String
  title : String
  description : String

/-- A Session record.  The TS field error has type string or null and may
be absent; absent and null are collapsed into none.  The result field is
the raw structured-output object last accepted by
parseAgentStructuredOutput (the source stores the parsed JSON itself). -/
structure Session where
  id : String
  createdAt : Nat
  updatedAt : Nat
  status : SessionStatus
  problem : ProblemMetadata
  workspacePath : String
  artifactPath : Option String
  threadId : Option String
  result : Option Json
  events : List SessionEvent
  error : Option String

/-- The mutable state of a SessionManager instance: the sessions map, the
per-session subscriber sets (sockets as opaque numbers) and the set of
session ids with a registered StreamController (the keys of the
activeStreams map; the controller itself only wraps the external stream
and is not part of the state). -/
structure ManagerState where
  sessions : List (String × Session)
  clients : List (String × List Nat)
  activeStreams : List String

/-- Externally visible effects of a SessionManager operation, in emission
order: websocket broadcasts, socket closes (with close code and reason),
cancellation of the external stream, and the fire-and-forget spawn of
runAgentSession (none = initial source, some h = hint source). -/
inductive Output where
  | broadcastEvent : String → SessionEvent → Output
  | broadcastStatus : String → SessionStatus → Nat → Output
  | broadcastAgentResult : String → Json → Output
  | broadcastSnapshot : String → Session → Output
  | closeSocket : Nat → Nat → String → Output
  | cancelStream : String → Output
  | spawnRun : String → Option String → Output

/-- Lookup in the sessions map (keys are unique UUIDs; first match). -/
def lookupSession : List (String × Session) → String → Option Session
  | [], _ => none
  | (k, v) :: rest, key => if k == key then some v else lookupSession rest key

/-- Replace the value stored under a key of the sessions map (the source
mutates the looked-up record in place; the key set is unchanged). -/
def updateSession (l : List (String × Session)) (key : String) (v : Session) :
    List (String × Session) :=
  l.map (fun p => if p.1 == key then (p.1, v) else p)

/-- Delete a key from the sessions map. -/
def deleteSession (l : List (String × Session)) (key : String) :
    List (String × Session) :=
  l.filter (fun p => !(p.1 == key))

/-- Lookup in the clients map. -/
def lookupClients : List (String × List Nat) → String → Option (List Nat)
  | [], _ => none
  | (k, v) :: rest, key => if k == key then some v else lookupClients rest key

/-- Delete a key from the clients map. -/
def deleteClients (l : List (String × List Nat)) (key : String) :
    List (String × List Nat) :=
  l.filter (fun p => !(p.1 == key))

/-- Delete an id from the activeStreams key set. -/
def deleteStream (l : List String) (key : String) : List String :=
  l.filter (fun s => !(s == key))

/-- Build a SessionEvent the way publishEvent does: fresh id and
timestamp are supplied by the caller (randomUUID and Date.now are
external). -/
def mkEvent (eid : String) (ts : Nat) (level : EventLevel) (message : String)
    (details : Option (List (String × Json))) : SessionEvent :=
  ⟨eid, ts, level, message, details⟩

/-- Error codes thrown by SessionManager.submitHint. -/
inductive SMErrorCode where
  | SESSION_NOT_FOUND | SESSION_THREAD_UNAVAILABLE | SESSION_BUSY
deriving DecidableEq, Repr

/-- A SessionManagerError value: HTTP status code plus symbolic code. -/
structure SMError where
  statusCode : Nat
  code : SMErrorCode
deriving DecidableEq, Repr

/-- Embedding of SessionManager.submitHint (sessionManager.ts lines
323-361), the synchronous segment up to the fire-and-forget spawn of
runAgentSession.  An error result models a thrown SessionManagerError;
the function returns before any mutation in that case, so the caller
keeps the unchanged input state.  The three internal helpers are inlined
on the session found by the initial lookup (no suspension point separates
them in the source): publishEvent appends the hint event and bumps
updatedAt; updateStatus sets status to pending and broadcasts it;
updateSessionMetadata clears result.  now stands for the Date.now calls
and eventId for the randomUUID call of publishEvent. -/
def submitHint (st : ManagerState) (sessionId hint : String) (now : Nat)
    (eventId : String) : Except SMError (ManagerState × List Output) :=
  match lookupSession st.sessions sessionId with
  | none => Except.error ⟨404, SMErrorCode.SESSION_NOT_FOUND⟩
  | some session =>
    match session.threadId with
    | none => Except.error ⟨409, SMErrorCode.SESSION_THREAD_UNAVAILABLE⟩
    | some _ =>
      if st.activeStreams.contains sessionId then
        Except.error ⟨409, SMErrorCode.SESSION_BUSY⟩
      else
        let normalizedHint := hint.trim
        let hintEvent := mkEvent eventId now EventLevel.task "Operator hint received."
          (some [("hint", Json.str (truncate normalizedHint 400))])
        let s1 := { session with updatedAt := now, events := session.events ++ [hintEvent] }
        let s2 := { s1 with status := SessionStatus.pending, updatedAt := now }
        let s3 := { s2 with result := none, updatedAt := now }
        Except.ok ({ st with sessions := updateSession st.sessions sessionId s3 },
          [Output.broadcastEvent sessionId hintEvent,
           Output.broadcastStatus sessionId SessionStatus.pending now,
           Output.spawnRun sessionId (some normalizedHint)])

/-- Embedding of SessionManager.removeSession (lines 259-290).  The
source first cancels and deletes any registered stream controller for the
id, and only then looks the session up: the early-return branch for a
missing session therefore still performs that cleanup.  On the found
branch the record is marked cancelled, a snapshot of the cancelled record
is broadcast, the record is deleted, and every subscriber socket is
closed with the normal-closure code 1000.  The awaited controller.cancel
call is a suspension point in the source; the function is modelled as
its net effect on the manager state, which the remove transition of the
run model below refines for the interleaving-sensitive part. -/
def removeSession (st : ManagerState) (sessionId : String) (now : Nat) :
    Bool × ManagerState × List Output :=
  let hadStream := st.activeStreams.contains sessionId
  let streams1 := deleteStream st.activeStreams sessionId
  let outs0 := if hadStream then [Output.cancelStream sessionId] else []
  match lookupSession st.sessions sessionId with
  | none => (false, { st with activeStreams := streams1 }, outs0)
  | some session =>
    let s1 := { session with status := SessionStatus.cancelled, updatedAt := now }
    let sockets := (lookupClients st.clients sessionId).getD []
    let closes := sockets.map (fun sock => Output.closeSocket sock 1000 "Session cancelled")
    (true,
      { sessions := deleteSession st.sessions sessionId,
        clients := deleteClients st.clients sessionId,
        activeStreams := streams1 },
      outs0 ++ [Output.broadcastSnapshot sessionId s1] ++ closes)

/-- Embedding of the inner finally block of runAgentSession (lines
520-529): the stream controller entry is deleted; when the run was not
cancelled and the session still exists, a status still equal to running
is forced to awaiting_hint (updateStatus also broadcasts) and a snapshot
is broadcast. -/
def finalizeRun (st : ManagerState) (sessionId : String) (cancelled : Bool)
    (now : Nat) : ManagerState × List Output :=
  let st0 := { st with activeStreams := deleteStream st.activeStreams sessionId }
  if cancelled then (st0, [])
  else
    match lookupSession st0.sessions sessionId with
    | none => (st0, [])
    | some latest =>
      if latest.status = SessionStatus.running then
        let s1 := { latest with status := SessionStatus.awaiting_hint, updatedAt := now }
        ({ st0 with sessions := updateSession st0.sessions sessionId s1 },
          [Output.broadcastStatus sessionId SessionStatus.awaiting_hint now,
           Output.broadcastSnapshot sessionId s1])
      else (st0, [Output.broadcastSnapshot sessionId latest])

/-- Embedding of the thread.started case of handleThreadEvent (lines
558-569): updateSessionMetadata assigns the incoming thread id
unconditionally (silent no-op when the session is absent), then
publishEvent appends the informational event (it throws when the session
is absent, modelled as none) and a snapshot is broadcast. -/
def handleThreadStarted (st : ManagerState) (sessionId threadId : String)
    (now : Nat) (eventId : String) : Option (ManagerState × List Output) :=
  match lookupSession st.sessions sessionId with
  | none => none
  | some s =>
    let s1 := { s with threadId := some threadId, updatedAt := now }
    let ev := mkEvent eventId now EventLevel.info "Codex thread established."
      (some [("threadId", Json.str threadId)])
    let s2 := { s1 with updatedAt := now, events := s1.events ++ [ev] }
    some ({ st with sessions := updateSession st.sessions sessionId s2 },
      [Output.broadcastEvent sessionId ev, Output.broadcastSnapshot sessionId s2])

/-- Embedding of the line 472-476 choice of the external engine call in
runAgentSession: resume the established thread when threadId is non-null,
start a fresh thread otherwise. -/
inductive ThreadCall where
  | startThread : ThreadCall
  | resumeThread : String → ThreadCall
deriving DecidableEq, Repr

/-- The thread call runAgentSession issues for a session record. -/
def chooseThreadCall (session : Session) : ThreadCall :=
  match session.threadId with
  | some t => ThreadCall.resumeThread t
  | none => ThreadCall.startThread

/-- Detail payload of the agent status event (handleAgentMessage, lines
801-815).  The solveCodePath and writeUpPath reads target properties that
the AgentStructuredOutput interface does not define (its fields are
solveCode and writeUp); on a schema-conforming object both reads yield
the JS value undefined and fall back to null through the
nullish-coalescing operator, but a parsed object carrying those literal
keys (the validator does not reject extra properties) passes its values
through.  solutionFiles and nextSteps are attached only when truthy
(null is falsy; any array, even empty, is truthy). -/
def agentDetailPayload (structured : Json) : List (String × Json) :=
  let base : List (String × Json) :=
    [("inferenceStatus", (jget structured "inferenceStatus").getD Json.null),
     ("summary", (jget structured "summary").getD Json.null),
     ("flag", (jget structured "flag").getD Json.null),
     ("solveCodePath", (jget structured "solveCodePath").getD Json.null),
     ("writeUpPath", (jget structured "writeUpPath").getD Json.null)]
  let withSolutionFiles :=
    match jget structured "solutionFiles" with
    | some v => if v.truthy then base ++ [("solutionFiles", v)] else base
    | none => base
  match jget structured "nextSteps" with
  | some v => if v.truthy then withSolutionFiles ++ [("nextSteps", v)]
      else withSolutionFiles
  | none => withSolutionFiles

/-- Event level of the agent status event (lines 794-799). -/
def agentEventLevel (structured : Json) : EventLevel :=
  if jStrVal (jget structured "inferenceStatus") == some "solved" then EventLevel.info
  else if jStrVal (jget structured "inferenceStatus") == some "failed" then EventLevel.error
  else EventLevel.warning

/-- Status transition driven by the parsed inference status (lines
830-836; the source spells the awaiting_hint branch twice, once for
failed and once as the fallback). -/
def agentNewStatus (structured : Json) : SessionStatus :=
  if jStrVal (jget structured "inferenceStatus") == some "solved" then
    SessionStatus.completed
  else if jStrVal (jget structured "inferenceStatus") == some "failed" then
    SessionStatus.awaiting_hint
  else SessionStatus.awaiting_hint

/-- The parse-success path of handleAgentMessage (lines 789-837) applied
to the session found in the store: the parsed object replaces result
wholesale and error is cleared (updateSessionMetadata), the levelled
status event is published, the raw result and a snapshot of the
still-unstatused record are broadcast, and updateStatus applies the
transition and broadcasts it. -/
def handleAgentMessageParsed (st : ManagerState) (sid : String)
    (structured : Json) (now : Nat) (eid : String) (s : Session) :
    ManagerState × List Output :=
  let ev := mkEvent eid now (agentEventLevel structured)
    ("Agent reported status: " ++ (jStrVal (jget structured "inferenceStatus")).getD "")
    (some (agentDetailPayload structured))
  let s1 := { s with result := some structured, error := none, updatedAt := now }
  let s2 := { s1 with updatedAt := now, events := s1.events ++ [ev] }
  let s3 := { s2 with status := agentNewStatus structured, updatedAt := now }
  ({ st with sessions := updateSession st.sessions sid s3 },
   [Output.broadcastEvent sid ev,
    Output.broadcastAgentResult sid structured,
    Output.broadcastSnapshot sid s2,
    Output.broadcastStatus sid (agentNewStatus structured) now])

/-- The parse-failure path of handleAgentMessage (lines 780-787): only an
informational event carrying the truncated text is published; result,
error and status are untouched. -/
def handleAgentMessageUnparsed (st : ManagerState) (sid itemText : String)
    (now : Nat) (eid : String) (s : Session) : ManagerState × List Output :=
  let ev := mkEvent eid now EventLevel.info "Agent response"
    (some [("content", Json.str (truncate itemText 600))])
  let s1 := { s with updatedAt := now, events := s.events ++ [ev] }
  ({ st with sessions := updateSession st.sessions sid s1 },
   [Output.broadcastEvent sid ev])

/-- Embedding of SessionManager.handleAgentMessage (lines 778-837) for a
completed agent_message item.  itemText is the raw message text; raw is
the outcome of the external JSON.parse builtin on it (none models a
parse exception).  none models the throw of publishEvent or updateStatus
when the session is absent from the store. -/
def handleAgentMessage (st : ManagerState) (sid itemText : String)
    (raw : Option Json) (now : Nat) (eid : String) :
    Option (ManagerState × List Output) :=
  match parseAgentStructuredOutput raw with
  | none =>
    match lookupSession st.sessions sid with
    | none => none
    | some s => some (handleAgentMessageUnparsed st sid itemText now eid s)
  | some structured =>
    match lookupSession st.sessions sid with
    | none => none
    | some s => some (handleAgentMessageParsed st sid structured now eid s)

/-! ## Admission controller (acquireAgentSlot / releaseAgentSlot,
lines 536-554)

The semaphore state is the activeAgentCount counter, the slotQueue of
suspended resolver callbacks, and additionally the list of waiters whose
resolver has been invoked but whose continuation (the increment after the
awaited promise) has not yet run — in JS that continuation is a microtask
enqueued by the resolve call inside releaseAgentSlot.  Each transition is
one synchronous JS segment of the source:

* fastAcquire: the un-suspended path of acquireAgentSlot (check below the
  cap, increment).
* enqueue: the saturated path (push the resolver, suspend).
* release (with or without a queued waiter): releaseAgentSlot in full —
  clamped decrement, shift of the queue head, invocation of its resolver.
* resume: the woken waiter continuation (the trailing increment of
  acquireAgentSlot), in wake order (the microtask queue is FIFO).

Every call of acquireAgentSlot in the source is reached synchronously
from an HTTP request or a workspace-preparation continuation, i.e. from a
macrotask; Node drains the microtask queue (all pending resume
continuations) before any macrotask runs, so an acquisition check never
executes while a woken continuation is pending.  The two acquisition
constructors therefore carry the side condition woken = []; release and
resume themselves run inside microtask continuations and interleave
freely.  Tasks are identified by numbers; holders lists the tasks
currently holding a permit. -/

structure SemState where
  count : Nat
  queue : List Nat
  woken : List Nat
  holders : List Nat
deriving DecidableEq, Repr

/-- The semaphore state at process start: counter 0, no waiters. -/
def semInit : SemState := ⟨0, [], [], []⟩

/-- One synchronous segment of acquireAgentSlot / releaseAgentSlot. -/
inductive SemStep (N : Nat) : SemState → SemState → Prop where
  | fastAcquire (s : SemState) (t : Nat) :
      s.woken = [] → s.count < N →
      SemStep N s ⟨s.count + 1, s.queue, s.woken, t :: s.holders⟩
  | enqueue (s : SemState) (t : Nat) :
      s.woken = [] → N ≤ s.count →
      SemStep N s ⟨s.count, s.queue ++ [t], s.woken, s.holders⟩
  | releaseNoWaiter (s : SemState) (t : Nat) :
      t ∈ s.holders → s.queue = [] →
      SemStep N s ⟨s.count - 1, [], s.woken, s.holders.erase t⟩
  | releaseWake (s : SemState) (t h : Nat) (rest : List Nat) :
      t ∈ s.holders → s.queue = h :: rest →
      SemStep N s ⟨s.count - 1, rest, s.woken ++ [h], s.holders.erase t⟩
  | resume (s : SemState) (h : Nat) (rest : List Nat) :
      s.woken = h :: rest →
      SemStep N s ⟨s.count + 1, s.queue, rest, h :: s.holders⟩

/-- States of the admission controller reachable from process start. -/
def SemReachable (N : Nat) (s : SemState) : Prop :=
  Relation.ReflTransGen (SemStep N) semInit s

/-- Inductive invariant of the admission controller: the counter counts
exactly the permit holders, holders plus pending wakeups never exceed the
cap, and while the queue is non-empty the cap is saturated by holders
plus pending wakeups. -/
def SemInv (N : Nat) (s : SemState) : Prop :=
  s.count = s.holders.length ∧
  s.count + s.woken.length ≤ N ∧
  (s.queue ≠ [] → N ≤ s.count + s.woken.length)

/-! ## The run procedure (runAgentSession, lines 402-534) as a
transition system

Each in-flight invocation of runAgentSession is a task.  Its program
counter names the synchronous segment the invocation has reached; the
segment boundaries are exactly the await suspension points of the source:

* entry: about to run the guard check of line 406 and the synchronous
  code down to the await of acquireAgentSlot on line 434.
* slotWait: suspended in acquireAgentSlot (the admission semaphore is
  abstracted here to «proceed while the counter is below the cap»; its
  FIFO queue is verified separately above).
* prep: the permit is held and the line 437 session recheck has passed;
  the task is suspended awaiting the external engine call
  (thread.runStreamed, line 478; for an initial run also the prompt
  construction of line 446).  No further session-existence check occurs
  before the controller registration.
* pumping: the stream controller has been registered in activeStreams
  (line 495) and the task consumes the event stream.
* exitedGuard: returned at line 407 (guard found a registered stream).
* exitedNoSession: returned at line 411-413 (session absent at entry).
* done: both finally blocks have run — the controller entry was deleted
  and releaseAgentSlot was called.

The per-task counters acq and rel count the acquireAgentSlot and
releaseAgentSlot calls the invocation has performed.  The remove
transition is the part of removeSession visible to this model: it
deletes the session record and any registered controller entry.  The
sessions and streams components hold only the ids (the record contents
are covered by the ManagerState functions above). -/

/-- Program counter of one runAgentSession invocation. -/
inductive RunPc where
  | entry | slotWait | prep | pumping | exitedGuard | exitedNoSession | done
deriving DecidableEq, Repr

/-- One in-flight (or finished) runAgentSession invocation. -/
structure RunTask where
  sid : String
  pc : RunPc
  acq : Nat
  rel : Nat
deriving DecidableEq, Repr

/-- The orchestration state seen by the run procedure: existing session
ids, registered stream-controller ids, the admission counter, and the
tasks. -/
structure RunState where
  sessions : List String
  streams : List String
  count : Nat
  tasks : List RunTask
deriving DecidableEq, Repr

/-- Map.set on the activeStreams key set: adds the id when absent (a
second set for the same id overwrites the controller value and leaves
the key set unchanged). -/
def insertId (l : List String) (key : String) : List String :=
  if l.contains key then l else key :: l

/-- Map.delete on a key set. -/
def eraseId (l : List String) (key : String) : List String :=
  l.filter (fun s => !(s == key))

/-- One synchronous segment of runAgentSession (or of removeSession as
far as this model sees it). -/
inductive RunStep (N : Nat) : RunState → RunState → Prop where
  | guardBusy (s : RunState) (i : Nat) (t : RunTask) :
      s.tasks[i]? = some t → t.pc = RunPc.entry →
      s.streams.contains t.sid = true →
      RunStep N s { s with tasks := s.tasks.set i { t with pc := RunPc.exitedGuard } }
  | guardNoSession (s : RunState) (i : Nat) (t : RunTask) :
      s.tasks[i]? = some t → t.pc = RunPc.entry →
      s.streams.contains t.sid = false → s.sessions.contains t.sid = false →
      RunStep N s { s with tasks := s.tasks.set i { t with pc := RunPc.exitedNoSession } }
  | guardPass (s : RunState) (i : Nat) (t : RunTask) :
      s.tasks[i]? = some t → t.pc = RunPc.entry →
      s.streams.contains t.sid = false → s.sessions.contains t.sid = true →
      RunStep N s { s with tasks := s.tasks.set i { t with pc := RunPc.slotWait } }
  | acquireOk (s : RunState) (i : Nat) (t : RunTask) :
      s.tasks[i]? = some t → t.pc = RunPc.slotWait → s.count < N →
      s.sessions.contains t.sid = true →
      RunStep N s
        { s with
          count := s.count + 1,
          tasks := s.tasks.set i { t with pc := RunPc.prep, acq := t.acq + 1 } }
  | acquireGone (s : RunState) (i : Nat) (t : RunTask) :
      s.tasks[i]? = some t → t.pc = RunPc.slotWait → s.count < N →
      s.sessions.contains t.sid = false →
      RunStep N s
        { s with
          count := s.count + 1 - 1,
          tasks := s.tasks.set i
            { t with pc := RunPc.done, acq := t.acq + 1, rel := t.rel + 1 } }
  | register (s : RunState) (i : Nat) (t : RunTask) :
      s.tasks[i]? = some t → t.pc = RunPc.prep →
      RunStep N s
        { s with
          streams := insertId s.streams t.sid,
          tasks := s.tasks.set i { t with pc := RunPc.pumping } }
  | finish (s : RunState) (i : Nat) (t : RunTask) :
      s.tasks[i]? = some t → t.pc = RunPc.pumping →
      RunStep N s
        { s with
          streams := eraseId s.streams t.sid,
          count := s.count - 1,
          tasks := s.tasks.set i { t with pc := RunPc.done, rel := t.rel + 1 } }
  | remove (s : RunState) (sid : String) :
      s.sessions.contains sid = true →
      RunStep N s
        { s with
          sessions := eraseId s.sessions sid,
          streams := eraseId s.streams sid }

/-- Bookkeeping invariant of one task: permits are acquired at most once
per invocation and released exactly once on every exit path that
acquired one. -/
def TaskOK (t : RunTask) : Prop :=
  (t.pc = RunPc.entry → t.acq = 0 ∧ t.rel = 0) ∧
  (t.pc = RunPc.slotWait → t.acq = 0 ∧ t.rel = 0) ∧
  (t.pc = RunPc.exitedGuard → t.acq = 0 ∧ t.rel = 0) ∧
  (t.pc = RunPc.exitedNoSession → t.acq = 0 ∧ t.rel = 0) ∧
  (t.pc = RunPc.prep → t.acq = 1 ∧ t.rel = 0) ∧
  (t.pc = RunPc.pumping → t.acq = 1 ∧ t.rel = 0) ∧
  (t.pc = RunPc.done → t.rel = t.acq ∧ t.acq ≤ 1)

/-- A RunState is initial when every task is at the entry of
runAgentSession and has touched no permit. -/
def RunInitial (s : RunState) : Prop :=
  ∀ t ∈ s.tasks, t.pc = RunPc.entry ∧ t.acq = 0 ∧ t.rel = 0

/-- Run-model states reachable from a given initial state. -/
def RunReachable (N : Nat) (s0 s : RunState) : Prop :=
  Relation.ReflTransGen (RunStep N) s0 s

/-! ## Concrete states used by the claim witnesses and counterexamples -/

/-- Problem metadata of the demonstration sessions. -/
def demoProblem : ProblemMetadata := ⟨"pwn", "Heap playground", "demo"⟩

/-- A completed session with an established thread and no registered
stream controller (the state every successfully solved session rests
in). -/
def sessionCompleted : Session :=
  ⟨"c1", 0, 0, SessionStatus.completed, demoProblem, "/w", none, some "th-c",
    none, [], none⟩

/-- Store holding only sessionCompleted. -/
def stateCompleted : ManagerState := ⟨[("c1", sessionCompleted)], [], []⟩

/-- A running session whose run has not yet registered its stream
controller: the window between updateStatus running (line 452) and the
activeStreams registration (line 495), which contains the awaited
runStreamed call. -/
def sessionRunningPre : Session :=
  ⟨"r1", 0, 0, SessionStatus.running, demoProblem, "/w", none, some "th-r",
    some (Json.str "old"), [], none⟩

/-- Store holding only sessionRunningPre, with no registered stream. -/
def stateRunningPre : ManagerState := ⟨[("r1", sessionRunningPre)], [], []⟩

/-- A running session with a registered stream controller (the normal
pumping state). -/
def sessionRunLive : Session :=
  ⟨"m1", 0, 0, SessionStatus.running, demoProblem, "/w", none, some "th-m",
    none, [], none⟩

/-- Store holding only sessionRunLive with its stream registered. -/
def stateRunLive : ManagerState := ⟨[("m1", sessionRunLive)], [], ["m1"]⟩

/-- A running session with an established thread identifier. -/
def sessionThreadEst : Session :=
  ⟨"t1", 0, 0, SessionStatus.running, demoProblem, "/w", none, some "thread-a",
    none, [], none⟩

/-- Store holding only sessionThreadEst with its stream registered. -/
def stateThreadEst : ManagerState := ⟨[("t1", sessionThreadEst)], [], ["t1"]⟩

/-- A running session with one live subscriber socket. -/
def sessionWithClient : Session :=
  ⟨"w1", 0, 0, SessionStatus.running, demoProblem, "/w", none, none, none, [],
    none⟩

/-- Store holding sessionWithClient, one subscriber and a registered
stream. -/
def stateWithClient : ManagerState :=
  ⟨[("w1", sessionWithClient)], [("w1", [7])], ["w1"]⟩

/-- A manager state with no session record but a stream-controller entry
still registered under the id o1 (the shape reached when removeSession
runs while a run invocation is suspended between its line 437 recheck
and its line 495 registration; see the run-model trace in the matching
counterexample). -/
def stateOrphan : ManagerState := ⟨[], [], ["o1"]⟩

/-- A schema-conforming structured output whose inference status is
solved. -/
def structuredSolved : Json := Json.obj
  [("inferenceStatus", Json.str "solved"), ("summary", Json.str "captured"),
   ("flag", Json.str "FLAG"), ("solveCode", Json.null), ("writeUp", Json.null),
   ("solutionFiles", Json.null), ("nextSteps", Json.null)]

/-- A structured output that passes isAgentStructuredOutput (which never
rejects extra properties) while carrying a literal solveCodePath key. -/
def structuredWithPath : Json := Json.obj
  [("inferenceStatus", Json.str "solved"), ("summary", Json.str "done"),
   ("flag", Json.null), ("solveCode", Json.str "print(1)"),
   ("writeUp", Json.str "notes"), ("solutionFiles", Json.null),
   ("nextSteps", Json.null), ("solveCodePath", Json.str "/tmp/x.py")]

/-- Run-model initial state for the same-session overlap trace: one
existing session s1, no registered stream, two invocations of
runAgentSession for s1 at entry. -/
def overlapInit : RunState :=
  ⟨["s1"], [], 0, [⟨"s1", RunPc.entry, 0, 0⟩, ⟨"s1", RunPc.entry, 0, 0⟩]⟩

/-- Overlap state: both invocations for s1 are pumping concurrently and
each holds an admission permit. -/
def overlapBad : RunState :=
  ⟨["s1"], ["s1"], 2, [⟨"s1", RunPc.pumping, 1, 0⟩, ⟨"s1", RunPc.pumping, 1, 0⟩]⟩

/-- Run-model initial state for the orphaned-stream trace: one session
o1 and one invocation at entry. -/
def orphanInit : RunState := ⟨["o1"], [], 0, [⟨"o1", RunPc.entry, 0, 0⟩]⟩

/-- Orphan state: the session record is gone but the run, which passed
its only existence recheck before suspending in the engine call,
registered its stream controller afterwards. -/
def orphanBad : RunState := ⟨[], ["o1"], 1, [⟨"o1", RunPc.pumping, 1, 0⟩]⟩

/-- A run-model state whose single task is at entry while a stream
controller for its session is registered. -/
def guardBusyState : RunState := ⟨["g1"], ["g1"], 1, [⟨"g1", RunPc.entry, 0, 0⟩]⟩

/-! ## Helper lemmas and claim theorems -/

theorem clampConcurrency_pos (parsed : Option Int) : 1 ≤ clampConcurrency parsed := by
  cases parsed with
  | none => simp [clampConcurrency]
  | some p =>
    simp only [clampConcurrency]
    split
    · omega
    · omega

theorem semInv_init (N : Nat) : SemInv N semInit := by
  refine ⟨rfl, by simp [semInit], ?_⟩
  intro h
  exact absurd rfl h

theorem semInv_step {N : Nat} {s s' : SemState} (hInv : SemInv N s)
    (hStep : SemStep N s s') : SemInv N s' := by
  obtain ⟨hCount, hCap, hQueue⟩ := hInv
  cases hStep with
  | fastAcquire t hw hc =>
    refine ⟨by simp [hCount], ?_, ?_⟩
    · simp only [hw, List.length_nil] at hCap ⊢
      omega
    · intro hq
      have hsat := hQueue hq
      simp only [hw, List.length_nil] at hsat
      omega
  | enqueue t hw hc =>
    refine ⟨hCount, hCap, ?_⟩
    intro _
    simp only [hw, List.length_nil]
    omega
  | releaseNoWaiter t hmem hq =>
    have hlen : s.holders.length ≠ 0 := by
      intro h0
      rw [List.length_eq_zero] at h0
      rw [h0] at hmem
      exact absurd hmem (List.not_mem_nil t)
    refine ⟨?_, by simp only []; omega, ?_⟩
    · simp only [List.length_erase_of_mem hmem]
      omega
    · intro h
      exact absurd rfl h
  | releaseWake t h rest hmem hq =>
    have hlen : s.holders.length ≠ 0 := by
      intro h0
      rw [List.length_eq_zero] at h0
      rw [h0] at hmem
      exact absurd hmem (List.not_mem_nil t)
    have hsat : N ≤ s.count + s.woken.length := hQueue (by simp [hq])
    refine ⟨?_, ?_, ?_⟩
    · simp only [List.length_erase_of_mem hmem]
      omega
    · simp only [List.length_append, List.length_cons, List.length_nil]
      omega
    · intro _
      simp only [List.length_append, List.length_cons, List.length_nil]
      omega
  | resume h rest hw =>
    have hlen : s.woken.length = rest.length + 1 := by simp [hw]
    refine ⟨by simp [hCount], ?_, ?_⟩
    · show s.count + 1 + rest.length ≤ N
      omega
    · intro hq
      have hsat := hQueue hq
      show N ≤ s.count + 1 + rest.length
      omega

theorem semInv_reachable {N : Nat} {s : SemState} (h : SemReachable N s) :
    SemInv N s := by
  induction h with
  | refl => exact semInv_init N
  | tail _ hstep ih => exact semInv_step ih hstep

theorem taskOK_of_initial {s : RunState} (h : RunInitial s) :
    ∀ t ∈ s.tasks, TaskOK t := by
  intro t ht
  obtain ⟨hpc, hacq, hrel⟩ := h t ht
  refine ⟨fun _ => ⟨hacq, hrel⟩, fun h2 => ⟨hacq, hrel⟩, fun h2 => ⟨hacq, hrel⟩,
    fun h2 => ⟨hacq, hrel⟩, fun h2 => ?_, fun h2 => ?_, fun h2 => ?_⟩
  · rw [hpc] at h2; cases h2
  · rw [hpc] at h2; cases h2
  · rw [hpc] at h2
    cases h2

theorem taskOK_step {N : Nat} {s s' : RunState}
    (hOK : ∀ t ∈ s.tasks, TaskOK t) (hStep : RunStep N s s') :
    ∀ t ∈ s'.tasks, TaskOK t := by
  cases hStep with
  | guardBusy i t hget hpc hstr =>
    intro u hu
    rcases List.mem_or_eq_of_mem_set hu with hmem | heq
    · exact hOK u hmem
    · subst heq
      obtain ⟨ha, hr⟩ := (hOK t (List.getElem?_mem hget)).1 hpc
      simp [TaskOK]
      omega
  | guardNoSession i t hget hpc hstr hses =>
    intro u hu
    rcases List.mem_or_eq_of_mem_set hu with hmem | heq
    · exact hOK u hmem
    · subst heq
      obtain ⟨ha, hr⟩ := (hOK t (List.getElem?_mem hget)).1 hpc
      simp [TaskOK]
      omega
  | guardPass i t hget hpc hstr hses =>
    intro u hu
    rcases List.mem_or_eq_of_mem_set hu with hmem | heq
    · exact hOK u hmem
    · subst heq
      obtain ⟨ha, hr⟩ := (hOK t (List.getElem?_mem hget)).1 hpc
      simp [TaskOK]
      omega
  | acquireOk i t hget hpc hlt hses =>
    intro u hu
    rcases List.mem_or_eq_of_mem_set hu with hmem | heq
    · exact hOK u hmem
    · subst heq
      obtain ⟨ha, hr⟩ := (hOK t (List.getElem?_mem hget)).2.1 hpc
      simp [TaskOK]
      omega
  | acquireGone i t hget hpc hlt hses =>
    intro u hu
    rcases List.mem_or_eq_of_mem_set hu with hmem | heq
    · exact hOK u hmem
    · subst heq
      obtain ⟨ha, hr⟩ := (hOK t (List.getElem?_mem hget)).2.1 hpc
      simp [TaskOK]
      omega
  | register i t hget hpc =>
    intro u hu
    rcases List.mem_or_eq_of_mem_set hu with hmem | heq
    · exact hOK u hmem
    · subst heq
      obtain ⟨ha, hr⟩ := (hOK t (List.getElem?_mem hget)).2.2.2.2.1 hpc
      simp [TaskOK]
      omega
  | finish i t hget hpc =>
    intro u hu
    rcases List.mem_or_eq_of_mem_set hu with hmem | heq
    · exact hOK u hmem
    · subst heq
      obtain ⟨ha, hr⟩ := (hOK t (List.getElem?_mem hget)).2.2.2.2.2.1 hpc
      simp [TaskOK]
      omega
  | remove sid hses =>
    intro u hu
    exact hOK u hu

theorem taskOK_reachable {N : Nat} {s0 s : RunState} (h0 : RunInitial s0)
    (h : RunReachable N s0 s) : ∀ t ∈ s.tasks, TaskOK t := by
  induction h with
  | refl => exact taskOK_of_initial h0
  | tail _ hstep ih => exact taskOK_step ih hstep

theorem lookupSession_updateSession_self (l : List (String × Session))
    (key : String) (v s : Session) (h : lookupSession l key = some s) :
    lookupSession (updateSession l key v) key = some v := by
  induction l with
  | nil => simp [lookupSession] at h
  | cons p rest ih =>
    simp only [updateSession, List.map_cons]
    by_cases hk : (p.1 == key) = true
    · rw [if_pos hk]
      simp only [lookupSession]
      rw [if_pos hk]
    · rw [if_neg hk]
      simp only [lookupSession]
      rw [if_neg hk]
      simp only [lookupSession] at h
      rw [if_neg hk] at h
      exact ih h

theorem lookupSession_deleteSession_self (l : List (String × Session))
    (key : String) : lookupSession (deleteSession l key) key = none := by
  induction l with
  | nil => simp [deleteSession, lookupSession]
  | cons p rest ih =>
    by_cases hk : p.1 == key
    · simp only [deleteSession, List.filter_cons, hk, Bool.not_true]
      exact ih
    · simp only [deleteSession, List.filter_cons, hk, Bool.not_false,
        lookupSession, if_false]
      simpa [lookupSession, hk] using ih

theorem lookupField_append_left (l1 l2 : List (String × Json)) (key : String)
    (v : Json) (h : lookupField l1 key = some v) :
    lookupField (l1 ++ l2) key = some v := by
  induction l1 with
  | nil => simp [lookupField] at h
  | cons p rest ih =>
    by_cases hk : p.1 == key
    · simp only [lookupField, hk, if_true] at h
      simp [lookupField, hk, h]
    · simp only [lookupField, hk, Bool.false_eq_true, if_false] at h
      simpa [lookupField, hk] using ih h

theorem agentDetailPayload_solveCodePath (structured : Json) :
    lookupField (agentDetailPayload structured) "solveCodePath" =
      some ((jget structured "solveCodePath").getD Json.null) := by
  unfold agentDetailPayload
  have hbase :
      lookupField
        [("inferenceStatus", (jget structured "inferenceStatus").getD Json.null),
         ("summary", (jget structured "summary").getD Json.null),
         ("flag", (jget structured "flag").getD Json.null),
         ("solveCodePath", (jget structured "solveCodePath").getD Json.null),
         ("writeUpPath", (jget structured "writeUpPath").getD Json.null)]
        "solveCodePath" = some ((jget structured "solveCodePath").getD Json.null) := by
    simp [lookupField]
  cases hsf : jget structured "solutionFiles" with
  | none =>
    cases hns : jget structured "nextSteps" with
    | none => simpa [hsf, hns] using hbase
    | some v =>
      by_cases hv : v.truthy
      · simp only [hsf, hns, hv, if_true]
        exact lookupField_append_left _ _ _ _ hbase
      · simpa [hsf, hns, hv] using hbase
  | some w =>
    by_cases hw : w.truthy
    · cases hns : jget structured "nextSteps" with
      | none =>
        simp only [hsf, hns, hw, if_true]
        exact lookupField_append_left _ _ _ _ hbase
      | some v =>
        by_cases hv : v.truthy
        · simp only [hsf, hns, hw, hv, if_true]
          exact lookupField_append_left _ _ _ _
            (lookupField_append_left _ _ _ _ hbase)
        · simp only [hsf, hns, hw, hv, Bool.false_eq_true, if_false, if_true]
          exact lookupField_append_left _ _ _ _ hbase
    · cases hns : jget structured "nextSteps" with
      | none => simpa [hsf, hns, hw] using hbase
      | some v =>
        by_cases hv : v.truthy
        · simp only [hsf, hns, hw, hv, Bool.false_eq_true, if_false, if_true]
          exact lookupField_append_left _ _ _ _ hbase
        · simpa [hsf, hns, hw, hv] using hbase

theorem agentDetailPayload_writeUpPath (structured : Json) :
    lookupField (agentDetailPayload structured) "writeUpPath" =
      some ((jget structured "writeUpPath").getD Json.null) := by
  unfold agentDetailPayload
  have hbase :
      lookupField
        [("inferenceStatus", (jget structured "inferenceStatus").getD Json.null),
         ("summary", (jget structured "summary").getD Json.null),
         ("flag", (jget structured "flag").getD Json.null),
         ("solveCodePath", (jget structured "solveCodePath").getD Json.null),
         ("writeUpPath", (jget structured "writeUpPath").getD Json.null)]
        "writeUpPath" = some ((jget structured "writeUpPath").getD Json.null) := by
    simp [lookupField]
  cases hsf : jget structured "solutionFiles" with
  | none =>
    cases hns : jget structured "nextSteps" with
    | none => simpa [hsf, hns] using hbase
    | some v =>
      by_cases hv : v.truthy
      · simp only [hsf, hns, hv, if_true]
        exact lookupField_append_left _ _ _ _ hbase
      · simpa [hsf, hns, hv] using hbase
  | some w =>
    by_cases hw : w.truthy
    · cases hns : jget structured "nextSteps" with
      | none =>
        simp only [hsf, hns, hw, if_true]
        exact lookupField_append_left _ _ _ _ hbase
      | some v =>
        by_cases hv : v.truthy
        · simp only [hsf, hns, hw, hv, if_true]
          exact lookupField_append_left _ _ _ _
            (lookupField_append_left _ _ _ _ hbase)
        · simp only [hsf, hns, hw, hv, Bool.false_eq_true, if_false, if_true]
          exact lookupField_append_left _ _ _ _ hbase
    · cases hns : jget structured "nextSteps" with
      | none => simpa [hsf, hns, hw] using hbase
      | some v =>
        by_cases hv : v.truthy
        · simp only [hsf, hns, hw, hv, Bool.false_eq_true, if_false, if_true]
          exact lookupField_append_left _ _ _ _ hbase
        · simpa [hsf, hns, hw, hv] using hbase

theorem handleAgentMessage_eq_parsed (st : ManagerState) (sid itemText : String)
    (raw : Option Json) (now : Nat) (eid : String) (s : Session) (v : Json)
    (hp : parseAgentStructuredOutput raw = some v)
    (hs : lookupSession st.sessions sid = some s) :
    handleAgentMessage st sid itemText raw now eid =
      some (handleAgentMessageParsed st sid v now eid s) := by
  simp [handleAgentMessage, hp, hs]

theorem handleAgentMessage_eq_unparsed (st : ManagerState) (sid itemText : String)
    (raw : Option Json) (now : Nat) (eid : String) (s : Session)
    (hp : parseAgentStructuredOutput raw = none)
    (hs : lookupSession st.sessions sid = some s) :
    handleAgentMessage st sid itemText raw now eid =
      some (handleAgentMessageUnparsed st sid itemText now eid s) := by
  simp [handleAgentMessage, hp, hs]

/-- C2: in every reachable state of the admission controller the number
of runs concurrently holding a permit (activeAgentCount) never exceeds
the configured maximum clampConcurrency parsed (maxConcurrentAgents),
however many acquisitions occur and however the synchronous segments of
acquireAgentSlot and releaseAgentSlot interleave at the suspension
points of the source under the Node scheduling of promise
continuations. -/
theorem claim_admission_bound (parsed : Option Int) (s : SemState)
    (h : SemReachable (clampConcurrency parsed) s) :
    s.count ≤ clampConcurrency parsed := by
  have hInv := semInv_reachable h
  have := hInv.2.1
  omega

theorem claim_admission_bound_witness :
    SemReachable (clampConcurrency none) ⟨1, [], [], [0]⟩ ∧
    SemState.count ⟨1, [], [], [0]⟩ ≤ clampConcurrency none := by
  have hstep : SemStep (clampConcurrency none) semInit ⟨1, [], [], [0]⟩ :=
    SemStep.fastAcquire semInit 0 rfl (by decide)
  have hreach : SemReachable (clampConcurrency none) ⟨1, [], [], [0]⟩ :=
    Relation.ReflTransGen.single hstep
  exact ⟨hreach, claim_admission_bound none _ hreach⟩

/-- C8: admission permits are granted in FIFO arrival order.  In every
reachable state of the admission controller: a new acquisition can take
the fast path only while the wait queue is empty (no queued waiter is
ever bypassed); every step that newly grants a permit does so either on
the fast path with an empty queue and no pending wakeup, or to the
longest-waiting woken waiter; and every step that removes a waiter from
the queue wakes exactly its head, the longest-waiting one. -/
theorem claim_admission_fifo (parsed : Option Int) (s : SemState)
    (h : SemReachable (clampConcurrency parsed) s) :
    (s.woken = [] → s.count < clampConcurrency parsed → s.queue = []) ∧
    (∀ s' : SemState, SemStep (clampConcurrency parsed) s s' →
      ∀ t : Nat, t ∉ s.holders → t ∈ s'.holders →
        (s.queue = [] ∧ s.woken = []) ∨ ∃ rest, s.woken = t :: rest) ∧
    (∀ s' : SemState, SemStep (clampConcurrency parsed) s s' →
      ∀ hd rest, s.queue = hd :: rest → s'.queue = rest →
        s'.woken = s.woken ++ [hd]) := by
  obtain ⟨hCount, hCap, hQueue⟩ := semInv_reachable h
  refine ⟨?_, ?_, ?_⟩
  · intro hw hc
    by_contra hq
    have hsat := hQueue hq
    rw [hw] at hsat
    simp only [List.length_nil] at hsat
    omega
  · intro s' hstep t hnot hin
    cases hstep with
    | fastAcquire u hw hc =>
      left
      refine ⟨?_, hw⟩
      by_contra hq
      have hsat := hQueue hq
      rw [hw] at hsat
      simp only [List.length_nil] at hsat
      omega
    | enqueue u hw hc => exact absurd hin hnot
    | releaseNoWaiter u hmem hq =>
      exact absurd (List.mem_of_mem_erase hin) hnot
    | releaseWake u hd rest hmem hq =>
      exact absurd (List.mem_of_mem_erase hin) hnot
    | resume hd rest hw =>
      have hcase : t = hd ∨ t ∈ s.holders := by
        simpa using hin
      rcases hcase with rfl | hmem
      · exact Or.inr ⟨rest, hw⟩
      · exact absurd hmem hnot
  · intro s' hstep hd rest hq hq'
    cases hstep with
    | fastAcquire u hw hc =>
      rw [hq] at hq'
      exact absurd hq' (List.cons_ne_self hd rest)
    | enqueue u hw hc =>
      rw [hq] at hq'
      have hlen := congrArg List.length hq'
      simp at hlen
      omega
    | releaseNoWaiter u hmem hqe =>
      rw [hqe] at hq
      cases hq
    | releaseWake u hd2 rest2 hmem hqe =>
      rw [hqe] at hq
      injection hq with h1 h2
      rw [h1]
    | resume hd2 rest2 hw =>
      rw [hq] at hq'
      exact absurd hq' (List.cons_ne_self hd rest)

theorem claim_admission_fifo_witness :
    SemReachable (clampConcurrency (some 1)) ⟨1, [1], [], [0]⟩ ∧
    SemState.woken ⟨1 - 1, [], [] ++ [1], List.erase [0] 0⟩ = [] ++ [1] := by
  have h1 : SemStep (clampConcurrency (some 1)) semInit ⟨1, [], [], [0]⟩ :=
    SemStep.fastAcquire semInit 0 rfl (by decide)
  have h2 : SemStep (clampConcurrency (some 1)) ⟨1, [], [], [0]⟩ ⟨1, [1], [], [0]⟩ :=
    SemStep.enqueue ⟨1, [], [], [0]⟩ 1 rfl (by decide)
  have hreach : SemReachable (clampConcurrency (some 1)) ⟨1, [1], [], [0]⟩ :=
    Relation.ReflTransGen.tail (Relation.ReflTransGen.single h1) h2
  have hstep : SemStep (clampConcurrency (some 1)) ⟨1, [1], [], [0]⟩
      ⟨1 - 1, [], [] ++ [1], List.erase [0] 0⟩ :=
    SemStep.releaseWake ⟨1, [1], [], [0]⟩ 0 1 [] (by simp) rfl
  exact ⟨hreach,
    (claim_admission_fifo (some 1) _ hreach).2.2 _ hstep 1 [] rfl rfl⟩

theorem finalizeRun_not_cancelled (st : ManagerState) (sid : String) (now : Nat)
    (s : Session) (hs : lookupSession st.sessions sid = some s) :
    finalizeRun st sid false now =
      if s.status = SessionStatus.running then
        ({ st with
            activeStreams := deleteStream st.activeStreams sid,
            sessions := updateSession st.sessions sid
              { s with status := SessionStatus.awaiting_hint, updatedAt := now } },
         [Output.broadcastStatus sid SessionStatus.awaiting_hint now,
          Output.broadcastSnapshot sid
            { s with status := SessionStatus.awaiting_hint, updatedAt := now }])
      else
        ({ st with activeStreams := deleteStream st.activeStreams sid },
         [Output.broadcastSnapshot sid s]) := by
  simp only [finalizeRun, Bool.false_eq_true, if_false]
  rw [show lookupSession
      ({ st with activeStreams := deleteStream st.activeStreams sid } :
        ManagerState).sessions sid = some s from hs]

/-- C6: when the event stream of a run is exhausted without cancellation
while the session record still exists, the finalisation block of
runAgentSession never leaves the session in status running: a session
still running is forced to awaiting_hint (updateStatus) and a snapshot
is broadcast before the run finishes. -/
theorem claim_stream_end_never_running (st : ManagerState) (sid : String)
    (now : Nat) (s : Session) (hs : lookupSession st.sessions sid = some s) :
    ((lookupSession (finalizeRun st sid false now).1.sessions sid).map
        Session.status ≠ some SessionStatus.running) ∧
    (s.status = SessionStatus.running →
      (lookupSession (finalizeRun st sid false now).1.sessions sid).map
          Session.status = some SessionStatus.awaiting_hint ∧
      ∃ snap, Output.broadcastSnapshot sid snap ∈ (finalizeRun st sid false now).2) := by
  rw [finalizeRun_not_cancelled st sid now s hs]
  by_cases hrun : s.status = SessionStatus.running
  · rw [if_pos hrun]
    have hlook := lookupSession_updateSession_self st.sessions sid
      { s with status := SessionStatus.awaiting_hint, updatedAt := now } s hs
    constructor
    · intro hcontra
      rw [show ({ st with
          activeStreams := deleteStream st.activeStreams sid,
          sessions := updateSession st.sessions sid
            { s with status := SessionStatus.awaiting_hint, updatedAt := now } } :
          ManagerState).sessions = updateSession st.sessions sid
            { s with status := SessionStatus.awaiting_hint, updatedAt := now }
          from rfl] at hcontra
      rw [hlook] at hcontra
      simp at hcontra
    · intro _
      constructor
      · rw [show ({ st with
            activeStreams := deleteStream st.activeStreams sid,
            sessions := updateSession st.sessions sid
              { s with status := SessionStatus.awaiting_hint, updatedAt := now } } :
            ManagerState).sessions = updateSession st.sessions sid
              { s with status := SessionStatus.awaiting_hint, updatedAt := now }
            from rfl]
        rw [hlook]
        rfl
      · exact ⟨{ s with status := SessionStatus.awaiting_hint, updatedAt := now },
          by simp⟩
  · rw [if_neg hrun]
    refine ⟨?_, fun hcontra => absurd hcontra hrun⟩
    intro hcontra
    rw [show ({ st with activeStreams := deleteStream st.activeStreams sid } :
        ManagerState).sessions = st.sessions from rfl] at hcontra
    rw [hs] at hcontra
    simp at hcontra
    exact hrun hcontra

theorem claim_stream_end_never_running_witness :
    lookupSession stateRunLive.sessions "m1" = some sessionRunLive ∧
    ((lookupSession (finalizeRun stateRunLive "m1" false 9).1.sessions "m1").map
        Session.status ≠ some SessionStatus.running) ∧
    (sessionRunLive.status = SessionStatus.running →
      (lookupSession (finalizeRun stateRunLive "m1" false 9).1.sessions "m1").map
          Session.status = some SessionStatus.awaiting_hint ∧
      ∃ snap, Output.broadcastSnapshot "m1" snap ∈ (finalizeRun stateRunLive "m1" false 9).2) :=
  ⟨rfl, claim_stream_end_never_running stateRunLive "m1" 9 sessionRunLive rfl⟩

theorem lookup_update_result (l : List (String × Session)) (key : String)
    (v s : Session) (h : lookupSession l key = some s) :
    (lookupSession (updateSession l key v) key).map Session.result = some v.result := by
  rw [lookupSession_updateSession_self l key v s h]
  rfl

theorem lookup_update_status (l : List (String × Session)) (key : String)
    (v s : Session) (h : lookupSession l key = some s) :
    (lookupSession (updateSession l key v) key).map Session.status = some v.status := by
  rw [lookupSession_updateSession_self l key v s h]
  rfl

theorem lookup_update_events (l : List (String × Session)) (key : String)
    (v s : Session) (h : lookupSession l key = some s) :
    (lookupSession (updateSession l key v) key).map Session.events = some v.events := by
  rw [lookupSession_updateSession_self l key v s h]
  rfl

theorem lookup_update_threadId (l : List (String × Session)) (key : String)
    (v s : Session) (h : lookupSession l key = some s) :
    (lookupSession (updateSession l key v) key).map Session.threadId = some v.threadId := by
  rw [lookupSession_updateSession_self l key v s h]
  rfl

/-- C5: when the text of a completed agent message parses against the
result schema, the parsed object replaces session.result wholesale and
the status becomes completed exactly when the parsed inference status is
solved and awaiting_hint otherwise; when the text does not parse, only
one informational event is appended and result and status are left
untouched. -/
theorem claim_structured_output (st : ManagerState) (sid itemText : String)
    (raw : Option Json) (now : Nat) (eid : String) (s : Session)
    (hs : lookupSession st.sessions sid = some s) :
    (∀ v, parseAgentStructuredOutput raw = some v →
      ∃ st' outs, handleAgentMessage st sid itemText raw now eid = some (st', outs) ∧
        (lookupSession st'.sessions sid).map Session.result = some (some v) ∧
        (lookupSession st'.sessions sid).map Session.status =
          some (if jStrVal (jget v "inferenceStatus") == some "solved" then
            SessionStatus.completed else SessionStatus.awaiting_hint)) ∧
    (parseAgentStructuredOutput raw = none →
      ∃ st' ev, handleAgentMessage st sid itemText raw now eid =
          some (st', [Output.broadcastEvent sid ev]) ∧
        ev.level = EventLevel.info ∧
        (lookupSession st'.sessions sid).map Session.result = some s.result ∧
        (lookupSession st'.sessions sid).map Session.status = some s.status ∧
        (lookupSession st'.sessions sid).map Session.events = some (s.events ++ [ev])) := by
  constructor
  · intro v hp
    rw [handleAgentMessage_eq_parsed st sid itemText raw now eid s v hp hs]
    refine ⟨_, _, rfl, ?_, ?_⟩
    · exact lookup_update_result st.sessions sid _ s hs
    · refine (lookup_update_status st.sessions sid _ s hs).trans ?_
      show some (agentNewStatus v) = _
      by_cases hsolved : (jStrVal (jget v "inferenceStatus") == some "solved") = true
      · simp [agentNewStatus, hsolved]
      · by_cases hfailed : (jStrVal (jget v "inferenceStatus") == some "failed") = true
        · simp [agentNewStatus, hsolved, hfailed]
        · simp [agentNewStatus, hsolved, hfailed]
  · intro hp
    rw [handleAgentMessage_eq_unparsed st sid itemText raw now eid s hp hs]
    refine ⟨_, _, rfl, rfl, ?_, ?_, ?_⟩
    · exact lookup_update_result st.sessions sid _ s hs
    · exact lookup_update_status st.sessions sid _ s hs
    · exact lookup_update_events st.sessions sid _ s hs

theorem claim_structured_output_witness :
    parseAgentStructuredOutput (some structuredSolved) = some structuredSolved ∧
    (∃ st' outs, handleAgentMessage stateRunLive "m1" "body" (some structuredSolved)
        9 "e5" = some (st', outs) ∧
      (lookupSession st'.sessions "m1").map Session.result =
        some (some structuredSolved) ∧
      (lookupSession st'.sessions "m1").map Session.status =
        some (if jStrVal (jget structuredSolved "inferenceStatus") == some "solved"
          then SessionStatus.completed else SessionStatus.awaiting_hint)) :=
  ⟨rfl, (claim_structured_output stateRunLive "m1" "body" (some structuredSolved)
    9 "e5" sessionRunLive rfl).1 structuredSolved rfl⟩

/-- C1 (amended): the per-session run guard is checked before admission
acquisition, and an invocation of runAgentSession that finds a stream
controller registered for its session returns without effect: the only
step such an invocation can take sends it to exitedGuard, and any step
of the system either leaves that invocation untouched or is exactly that
exit, which changes nothing else; moreover an invocation that exited
through the guard never acquired or waited on an admission permit.  The
guard is however only taken (the controller registered, line 495) after
admission acquisition and the engine call, so invocations that pass the
check before any registration can overlap — see the matching
counterexample. -/
theorem claim_run_guard (N : Nat) (s s' : RunState) (hstep : RunStep N s s')
    (i : Nat) (t : RunTask) (hget : s.tasks[i]? = some t)
    (hpc : t.pc = RunPc.entry) (hbusy : s.streams.contains t.sid = true) :
    (s'.tasks[i]? = some t ∨
      s' = { s with tasks := s.tasks.set i { t with pc := RunPc.exitedGuard } }) ∧
    (∀ s0 s1 : RunState, RunInitial s0 → RunReachable N s0 s1 →
      ∀ u ∈ s1.tasks, u.pc = RunPc.exitedGuard → u.acq = 0 ∧ u.rel = 0) := by
  constructor
  · cases hstep with
    | guardBusy j u hget2 hpc2 hstr2 =>
      by_cases hij : i = j
      · subst hij
        rw [hget] at hget2
        injection hget2 with hut
        subst hut
        exact Or.inr rfl
      · left
        show (s.tasks.set j _)[i]? = some t
        rw [List.getElem?_set_ne (Ne.symm hij)]
        exact hget
    | guardNoSession j u hget2 hpc2 hstr2 hses2 =>
      by_cases hij : i = j
      · subst hij
        rw [hget] at hget2
        injection hget2 with hut
        subst hut
        rw [hbusy] at hstr2
        cases hstr2
      · left
        show (s.tasks.set j _)[i]? = some t
        rw [List.getElem?_set_ne (Ne.symm hij)]
        exact hget
    | guardPass j u hget2 hpc2 hstr2 hses2 =>
      by_cases hij : i = j
      · subst hij
        rw [hget] at hget2
        injection hget2 with hut
        subst hut
        rw [hbusy] at hstr2
        cases hstr2
      · left
        show (s.tasks.set j _)[i]? = some t
        rw [List.getElem?_set_ne (Ne.symm hij)]
        exact hget
    | acquireOk j u hget2 hpc2 hlt hses2 =>
      by_cases hij : i = j
      · subst hij
        rw [hget] at hget2
        injection hget2 with hut
        subst hut
        rw [hpc] at hpc2
        cases hpc2
      · left
        show (s.tasks.set j _)[i]? = some t
        rw [List.getElem?_set_ne (Ne.symm hij)]
        exact hget
    | acquireGone j u hget2 hpc2 hlt hses2 =>
      by_cases hij : i = j
      · subst hij
        rw [hget] at hget2
        injection hget2 with hut
        subst hut
        rw [hpc] at hpc2
        cases hpc2
      · left
        show (s.tasks.set j _)[i]? = some t
        rw [List.getElem?_set_ne (Ne.symm hij)]
        exact hget
    | register j u hget2 hpc2 =>
      by_cases hij : i = j
      · subst hij
        rw [hget] at hget2
        injection hget2 with hut
        subst hut
        rw [hpc] at hpc2
        cases hpc2
      · left
        show (s.tasks.set j _)[i]? = some t
        rw [List.getElem?_set_ne (Ne.symm hij)]
        exact hget
    | finish j u hget2 hpc2 =>
      by_cases hij : i = j
      · subst hij
        rw [hget] at hget2
        injection hget2 with hut
        subst hut
        rw [hpc] at hpc2
        cases hpc2
      · left
        show (s.tasks.set j _)[i]? = some t
        rw [List.getElem?_set_ne (Ne.symm hij)]
        exact hget
    | remove sid2 hses2 => exact Or.inl hget
  · intro s0 s1 h0 hreach u hu hupc
    exact (taskOK_reachable h0 hreach u hu).2.2.1 hupc

theorem claim_run_guard_witness :
    ((⟨["g1"], ["g1"], 1, [⟨"g1", RunPc.exitedGuard, 0, 0⟩]⟩ : RunState).tasks[0]? =
        some ⟨"g1", RunPc.entry, 0, 0⟩ ∨
      (⟨["g1"], ["g1"], 1, [⟨"g1", RunPc.exitedGuard, 0, 0⟩]⟩ : RunState) =
        { guardBusyState with
          tasks := guardBusyState.tasks.set 0 ⟨"g1", RunPc.exitedGuard, 0, 0⟩ }) :=
  (claim_run_guard 4 guardBusyState
    ⟨["g1"], ["g1"], 1, [⟨"g1", RunPc.exitedGuard, 0, 0⟩]⟩
    (RunStep.guardBusy guardBusyState 0 ⟨"g1", RunPc.entry, 0, 0⟩ rfl rfl rfl)
    0 ⟨"g1", RunPc.entry, 0, 0⟩ rfl rfl rfl).1

/-- C1 counterexample: the claim that a further invocation for a session
with a run in flight returns without effect, and that a session already
running never acquires a second admission permit, fails on the code:
the guard is checked at line 406 but the controller is registered only
at line 495, after the awaited admission acquisition and the awaited
engine call.  From overlapInit (one session s1, no registered stream,
two invocations of runAgentSession for s1 at entry, admission counter 0,
default cap 4) the model reaches overlapBad along source-faithful steps:
both invocations are pumping concurrently for the same session and each
holds an admission permit it has not released (two permits for one
session, admission counter 2). -/
theorem claim_run_overlap_counterexample :
    RunInitial overlapInit ∧
    RunReachable (clampConcurrency none) overlapInit overlapBad ∧
    overlapBad.tasks[0]? = some ⟨"s1", RunPc.pumping, 1, 0⟩ ∧
    overlapBad.tasks[1]? = some ⟨"s1", RunPc.pumping, 1, 0⟩ ∧
    overlapBad.count = 2 := by
  refine ⟨?_, ?_, rfl, rfl, rfl⟩
  · intro t ht
    simp only [overlapInit, List.mem_cons, List.not_mem_nil, or_false] at ht
    rcases ht with rfl | rfl <;> exact ⟨rfl, rfl, rfl⟩
  have h1 : RunStep (clampConcurrency none) overlapInit
      ⟨["s1"], [], 0, [⟨"s1", RunPc.slotWait, 0, 0⟩, ⟨"s1", RunPc.entry, 0, 0⟩]⟩ :=
    RunStep.guardPass overlapInit 0 ⟨"s1", RunPc.entry, 0, 0⟩ rfl rfl rfl rfl
  have h2 : RunStep (clampConcurrency none)
      ⟨["s1"], [], 0, [⟨"s1", RunPc.slotWait, 0, 0⟩, ⟨"s1", RunPc.entry, 0, 0⟩]⟩
      ⟨["s1"], [], 1, [⟨"s1", RunPc.prep, 1, 0⟩, ⟨"s1", RunPc.entry, 0, 0⟩]⟩ :=
    RunStep.acquireOk _ 0 ⟨"s1", RunPc.slotWait, 0, 0⟩ rfl rfl (by decide) rfl
  have h3 : RunStep (clampConcurrency none)
      ⟨["s1"], [], 1, [⟨"s1", RunPc.prep, 1, 0⟩, ⟨"s1", RunPc.entry, 0, 0⟩]⟩
      ⟨["s1"], [], 1, [⟨"s1", RunPc.prep, 1, 0⟩, ⟨"s1", RunPc.slotWait, 0, 0⟩]⟩ :=
    RunStep.guardPass _ 1 ⟨"s1", RunPc.entry, 0, 0⟩ rfl rfl rfl rfl
  have h4 : RunStep (clampConcurrency none)
      ⟨["s1"], [], 1, [⟨"s1", RunPc.prep, 1, 0⟩, ⟨"s1", RunPc.slotWait, 0, 0⟩]⟩
      ⟨["s1"], [], 2, [⟨"s1", RunPc.prep, 1, 0⟩, ⟨"s1", RunPc.prep, 1, 0⟩]⟩ :=
    RunStep.acquireOk _ 1 ⟨"s1", RunPc.slotWait, 0, 0⟩ rfl rfl (by decide) rfl
  have h5 : RunStep (clampConcurrency none)
      ⟨["s1"], [], 2, [⟨"s1", RunPc.prep, 1, 0⟩, ⟨"s1", RunPc.prep, 1, 0⟩]⟩
      ⟨["s1"], ["s1"], 2, [⟨"s1", RunPc.pumping, 1, 0⟩, ⟨"s1", RunPc.prep, 1, 0⟩]⟩ :=
    RunStep.register _ 0 ⟨"s1", RunPc.prep, 1, 0⟩ rfl rfl
  have h6 : RunStep (clampConcurrency none)
      ⟨["s1"], ["s1"], 2, [⟨"s1", RunPc.pumping, 1, 0⟩, ⟨"s1", RunPc.prep, 1, 0⟩]⟩
      overlapBad :=
    RunStep.register _ 1 ⟨"s1", RunPc.prep, 1, 0⟩ rfl rfl
  exact Relation.ReflTransGen.head h1 (Relation.ReflTransGen.head h2
    (Relation.ReflTransGen.head h3 (Relation.ReflTransGen.head h4
      (Relation.ReflTransGen.head h5 (Relation.ReflTransGen.single h6)))))

/-- C3 counterexample: completed is not terminal on the code.
sessionCompleted has status completed, an established thread and no
registered stream controller — the state every solved session rests in —
and submitHint performs no status check: the submission succeeds and
moves the status back to pending. -/
theorem claim_terminal_counterexample :
    sessionCompleted.status = SessionStatus.completed ∧
    ∃ st' outs, submitHint stateCompleted "c1" "look at the heap" 7 "e9" =
        Except.ok (st', outs) ∧
      (lookupSession st'.sessions "c1").map Session.status =
        some SessionStatus.pending :=
  ⟨rfl, _, _, rfl, rfl⟩

/-- C3 (amended): cancelled is terminal, because removeSession deletes
the record in the same synchronous segment that marks it cancelled — no
stored session ever has status cancelled, and operations on an absent id
fail or return false without touching the stored sessions.  completed is
not enforced as terminal: submitHint does not test the status, so a hint
against a completed session with an established thread and no registered
run succeeds and moves it back to pending. -/
theorem claim_terminal_amended (st : ManagerState) (sid hint : String)
    (now : Nat) (eid : String) :
    (lookupSession st.sessions sid = none →
      submitHint st sid hint now eid =
        Except.error ⟨404, SMErrorCode.SESSION_NOT_FOUND⟩ ∧
      (removeSession st sid now).1 = false ∧
      (removeSession st sid now).2.1.sessions = st.sessions) ∧
    ((removeSession st sid now).1 = true →
      lookupSession (removeSession st sid now).2.1.sessions sid = none) ∧
    (∀ s, lookupSession st.sessions sid = some s →
      s.status = SessionStatus.completed → s.threadId ≠ none →
      st.activeStreams.contains sid = false →
      ∃ st' outs, submitHint st sid hint now eid = Except.ok (st', outs) ∧
        (lookupSession st'.sessions sid).map Session.status =
          some SessionStatus.pending) := by
  refine ⟨?_, ?_, ?_⟩
  · intro hnone
    refine ⟨?_, ?_, ?_⟩
    · simp [submitHint, hnone]
    · simp [removeSession, hnone]
    · simp [removeSession, hnone]
  · intro htrue
    cases hl : lookupSession st.sessions sid with
    | none => simp [removeSession, hl] at htrue
    | some s =>
      have hss : (removeSession st sid now).2.1.sessions =
          deleteSession st.sessions sid := by
        simp [removeSession, hl]
      rw [hss]
      exact lookupSession_deleteSession_self st.sessions sid
  · intro s hs hcomp hthread hstream
    cases ht : s.threadId with
    | none => exact absurd ht hthread
    | some tid =>
      let ev : SessionEvent := mkEvent eid now EventLevel.task
        "Operator hint received."
        (some [("hint", Json.str (truncate hint.trim 400))])
      let s3 : Session := { s with
        updatedAt := now, events := s.events ++ [ev],
        status := SessionStatus.pending, result := none, threadId := some tid }
      refine ⟨{ st with sessions := updateSession st.sessions sid s3 },
        [Output.broadcastEvent sid ev,
         Output.broadcastStatus sid SessionStatus.pending now,
         Output.spawnRun sid (some hint.trim)], ?_, ?_⟩
      · simp only [submitHint, hs, ht]
        rw [if_neg (by rw [hstream]; exact Bool.false_ne_true)]
      · exact lookup_update_status st.sessions sid s3 s hs

theorem claim_terminal_amended_witness :
    lookupSession stateCompleted.sessions "c1" = some sessionCompleted ∧
    (∃ st' outs, submitHint stateCompleted "c1" "dig deeper" 7 "e6" =
        Except.ok (st', outs) ∧
      (lookupSession st'.sessions "c1").map Session.status =
        some SessionStatus.pending) :=
  ⟨rfl, (claim_terminal_amended stateCompleted "c1" "dig deeper" 7 "e6").2.2
    sessionCompleted rfl rfl (by decide) rfl⟩

/-- C4 counterexample: a hint submitted while the session status is
running is not rejected when the stream controller is not yet registered
— the window of the awaited runStreamed call between updateStatus
running (line 452) and the registration (line 495): the submission
succeeds and mutates status, result and events. -/
theorem claim_hint_running_counterexample :
    sessionRunningPre.status = SessionStatus.running ∧
    sessionRunningPre.result = some (Json.str "old") ∧
    sessionRunningPre.events.length = 0 ∧
    stateRunningPre.activeStreams = [] ∧
    ∃ st' outs, submitHint stateRunningPre "r1" "keep going" 9 "e2" =
        Except.ok (st', outs) ∧
      (lookupSession st'.sessions "r1").map Session.status =
        some SessionStatus.pending ∧
      (lookupSession st'.sessions "r1").map Session.result = some none ∧
      (lookupSession st'.sessions "r1").map (fun u => u.events.length) = some 1 :=
  ⟨rfl, rfl, rfl, rfl, _, _, rfl, rfl, rfl, rfl⟩

/-- C4 (amended): submitHint fails — returning a SessionManagerError
before constructing any successor state, hence without mutation — when
the session is absent (404 SESSION_NOT_FOUND), when it has no
established thread (409 SESSION_THREAD_UNAVAILABLE), and when a stream
controller is registered for it, the run-active marker, whatever the
status (409 SESSION_BUSY).  It does not test the session status itself,
so a hint against a terminal session, or against a running session in
the window before its run registers the controller, proceeds and mutates
state (see the counterexample). -/
theorem claim_hint_preconditions (st : ManagerState) (sid hint : String)
    (now : Nat) (eid : String) :
    (lookupSession st.sessions sid = none →
      submitHint st sid hint now eid =
        Except.error ⟨404, SMErrorCode.SESSION_NOT_FOUND⟩) ∧
    (∀ s, lookupSession st.sessions sid = some s → s.threadId = none →
      submitHint st sid hint now eid =
        Except.error ⟨409, SMErrorCode.SESSION_THREAD_UNAVAILABLE⟩) ∧
    (∀ s, lookupSession st.sessions sid = some s → s.threadId ≠ none →
      st.activeStreams.contains sid = true →
      submitHint st sid hint now eid =
        Except.error ⟨409, SMErrorCode.SESSION_BUSY⟩) := by
  refine ⟨?_, ?_, ?_⟩
  · intro hnone
    simp [submitHint, hnone]
  · intro s hs ht
    simp [submitHint, hs, ht]
  · intro s hs hthread hstream
    cases ht : s.threadId with
    | none => exact absurd ht hthread
    | some tid =>
      simp only [submitHint, hs, ht]
      rw [if_pos hstream]

theorem claim_hint_preconditions_witness :
    sessionRunLive.status = SessionStatus.running ∧
    submitHint stateRunLive "m1" "probe" 3 "e7" =
      Except.error ⟨409, SMErrorCode.SESSION_BUSY⟩ :=
  ⟨rfl, (claim_hint_preconditions stateRunLive "m1" "probe" 3 "e7").2.2
    sessionRunLive rfl (by decide) rfl⟩

/-- C7 counterexample: removeSession on an id with no session record
returns false but is not mutation free: the stream cleanup precedes the
existence check (lines 260-273), so an orphaned stream-controller entry
under that id is cancelled and removed.  The orphan shape is reachable:
from orphanInit the run model reaches orphanBad — the session was
removed while the run invocation was suspended in the awaited engine
call after its only existence recheck (line 437), and the invocation
then registered its controller (line 495). -/
theorem claim_cancel_counterexample :
    lookupSession stateOrphan.sessions "o1" = none ∧
    stateOrphan.activeStreams = ["o1"] ∧
    (removeSession stateOrphan "o1" 3).1 = false ∧
    (removeSession stateOrphan "o1" 3).2.1.activeStreams = [] ∧
    Output.cancelStream "o1" ∈ (removeSession stateOrphan "o1" 3).2.2 ∧
    RunInitial orphanInit ∧
    RunReachable (clampConcurrency none) orphanInit orphanBad ∧
    orphanBad.sessions = [] ∧ orphanBad.streams = ["o1"] := by
  refine ⟨rfl, rfl, rfl, rfl, ?_, ?_, ?_, rfl, rfl⟩
  · show Output.cancelStream "o1" ∈ [Output.cancelStream "o1"]
    exact List.mem_singleton.mpr rfl
  · intro t ht
    simp only [orphanInit, List.mem_cons, List.not_mem_nil, or_false] at ht
    subst ht
    exact ⟨rfl, rfl, rfl⟩
  · have h1 : RunStep (clampConcurrency none) orphanInit
        ⟨["o1"], [], 0, [⟨"o1", RunPc.slotWait, 0, 0⟩]⟩ :=
      RunStep.guardPass orphanInit 0 ⟨"o1", RunPc.entry, 0, 0⟩ rfl rfl rfl rfl
    have h2 : RunStep (clampConcurrency none)
        ⟨["o1"], [], 0, [⟨"o1", RunPc.slotWait, 0, 0⟩]⟩
        ⟨["o1"], [], 1, [⟨"o1", RunPc.prep, 1, 0⟩]⟩ :=
      RunStep.acquireOk _ 0 ⟨"o1", RunPc.slotWait, 0, 0⟩ rfl rfl (by decide) rfl
    have h3 : RunStep (clampConcurrency none)
        ⟨["o1"], [], 1, [⟨"o1", RunPc.prep, 1, 0⟩]⟩
        ⟨[], [], 1, [⟨"o1", RunPc.prep, 1, 0⟩]⟩ :=
      RunStep.remove _ "o1" rfl
    have h4 : RunStep (clampConcurrency none)
        ⟨[], [], 1, [⟨"o1", RunPc.prep, 1, 0⟩]⟩ orphanBad :=
      RunStep.register _ 0 ⟨"o1", RunPc.prep, 1, 0⟩ rfl rfl
    exact Relation.ReflTransGen.head h1 (Relation.ReflTransGen.head h2
      (Relation.ReflTransGen.head h3 (Relation.ReflTransGen.single h4)))

/-- C7 (amended): cancelling an existing session marks it cancelled and
broadcasts the cancelled snapshot, deletes the record, closes every
subscriber socket with the normal-closure code 1000 and returns true; on
a missing id it returns false without touching the session store or the
subscriber registry, though it still cancels and discards any orphaned
stream-controller entry registered under the id (see the
counterexample); and every finished run invocation has released its
admission permit exactly once on its exit path. -/
theorem claim_cancel_semantics (st : ManagerState) (sid : String) (now : Nat) :
    (∀ s, lookupSession st.sessions sid = some s →
      (removeSession st sid now).1 = true ∧
      lookupSession (removeSession st sid now).2.1.sessions sid = none ∧
      Output.broadcastSnapshot sid
          { s with status := SessionStatus.cancelled, updatedAt := now } ∈
        (removeSession st sid now).2.2 ∧
      (∀ sock ∈ (lookupClients st.clients sid).getD [],
        Output.closeSocket sock 1000 "Session cancelled" ∈
          (removeSession st sid now).2.2)) ∧
    (lookupSession st.sessions sid = none →
      (removeSession st sid now).1 = false ∧
      (removeSession st sid now).2.1.sessions = st.sessions ∧
      (removeSession st sid now).2.1.clients = st.clients) ∧
    (∀ (N : Nat) (s0 s1 : RunState), RunInitial s0 → RunReachable N s0 s1 →
      ∀ u ∈ s1.tasks, u.pc = RunPc.done → u.rel = u.acq ∧ u.acq ≤ 1) := by
  refine ⟨?_, ?_, ?_⟩
  · intro s hs
    refine ⟨?_, ?_, ?_, ?_⟩
    · simp [removeSession, hs]
    · have hss : (removeSession st sid now).2.1.sessions =
          deleteSession st.sessions sid := by
        simp [removeSession, hs]
      rw [hss]
      exact lookupSession_deleteSession_self st.sessions sid
    · simp [removeSession, hs]
    · intro sock hsock
      simp only [removeSession, hs]
      simp only [List.mem_append]
      right
      exact List.mem_map.mpr ⟨sock, hsock, rfl⟩
  · intro hnone
    refine ⟨?_, ?_, ?_⟩
    · simp [removeSession, hnone]
    · simp [removeSession, hnone]
    · simp [removeSession, hnone]
  · intro N s0 s1 h0 hreach u hu hupc
    exact (taskOK_reachable h0 hreach u hu).2.2.2.2.2.2 hupc

theorem claim_cancel_semantics_witness :
    lookupSession stateWithClient.sessions "w1" = some sessionWithClient ∧
    ((removeSession stateWithClient "w1" 5).1 = true ∧
     lookupSession (removeSession stateWithClient "w1" 5).2.1.sessions "w1" = none ∧
     Output.broadcastSnapshot "w1"
         { sessionWithClient with
           status := SessionStatus.cancelled, updatedAt := 5 } ∈
       (removeSession stateWithClient "w1" 5).2.2 ∧
     (∀ sock ∈ (lookupClients stateWithClient.clients "w1").getD [],
       Output.closeSocket sock 1000 "Session cancelled" ∈
         (removeSession stateWithClient "w1" 5).2.2)) :=
  ⟨rfl, (claim_cancel_semantics stateWithClient "w1" 5).1 sessionWithClient rfl⟩

/-- C9 counterexample: handleThreadEvent assigns the incoming thread
identifier unconditionally (lines 558-561), so a thread-established
event carrying a different identifier replaces an already-established
threadId rather than reusing it. -/
theorem claim_threadId_counterexample :
    sessionThreadEst.threadId = some "thread-a" ∧
    ∃ st' outs, handleThreadStarted stateThreadEst "t1" "thread-b" 4 "e3" =
        some (st', outs) ∧
      (lookupSession st'.sessions "t1").map Session.threadId =
        some (some "thread-b") :=
  ⟨rfl, _, _, rfl, rfl⟩

/-- C9 (amended): the thread-established handler assigns the incoming
thread identifier unconditionally, so threadId is preserved exactly when
the stream reports the already-established identifier; the run start
itself does reuse an established threadId, resuming that thread instead
of starting a new one (lines 472-476). -/
theorem claim_threadId_semantics (st : ManagerState) (sid tid : String)
    (now : Nat) (eid : String) :
    (∀ st' outs, handleThreadStarted st sid tid now eid = some (st', outs) →
      (lookupSession st'.sessions sid).map Session.threadId = some (some tid)) ∧
    (∀ s : Session, s.threadId = some tid →
      chooseThreadCall s = ThreadCall.resumeThread tid) ∧
    (∀ s st' outs, lookupSession st.sessions sid = some s →
      s.threadId = some tid →
      handleThreadStarted st sid tid now eid = some (st', outs) →
      (lookupSession st'.sessions sid).map Session.threadId = some s.threadId) := by
  have hmain : ∀ st' outs, handleThreadStarted st sid tid now eid = some (st', outs) →
      (lookupSession st'.sessions sid).map Session.threadId = some (some tid) := by
    intro st' outs heq
    cases hl : lookupSession st.sessions sid with
    | none => simp [handleThreadStarted, hl] at heq
    | some s =>
      simp only [handleThreadStarted, hl, Option.some_inj] at heq
      injection heq with h1 h2
      subst h1
      exact lookup_update_threadId st.sessions sid _ s hl
  refine ⟨hmain, ?_, ?_⟩
  · intro s hthread
    rw [chooseThreadCall, hthread]
  · intro s st' outs hl hthread heq
    rw [hthread]
    exact hmain st' outs heq

theorem claim_threadId_semantics_witness :
    chooseThreadCall sessionThreadEst = ThreadCall.resumeThread "thread-a" :=
  (claim_threadId_semantics stateThreadEst "t1" "thread-a" 4 "e3").2.1
    sessionThreadEst rfl

/-- C10 counterexample: the validator rejects no extra properties, so a
parsed output carrying a literal solveCodePath key passes validation and
its value — not null — is copied into the details of the agent status
event; the details therefore do not always carry solveCodePath = null
for every successfully parsed structured output. -/
theorem claim_solveCodePath_counterexample :
    isAgentStructuredOutput structuredWithPath = true ∧
    ∃ st' ev outs', handleAgentMessage stateRunLive "m1" "body"
        (some structuredWithPath) 2 "e4" =
        some (st', Output.broadcastEvent "m1" ev :: outs') ∧
      ev.details.map (fun d => lookupField d "solveCodePath") =
        some (some (Json.str "/tmp/x.py")) :=
  ⟨rfl, _, _, _, rfl, rfl⟩

/-- C10 (amended): for every successfully parsed structured output whose
JSON carries no property literally named solveCodePath or writeUpPath —
in particular every output conforming to the advertised schema, which
sets additionalProperties to false — the details of the agent status
event carry solveCodePath = null and writeUpPath = null, and the
solveCode and writeUp contents are never read into those entries; the
validator however does not reject extra properties, so a payload
carrying those literal keys passes its values through (see the
counterexample). -/
theorem claim_solveCodePath_null (st : ManagerState) (sid itemText : String)
    (raw : Json) (now : Nat) (eid : String) (s : Session)
    (hs : lookupSession st.sessions sid = some s)
    (hvalid : isAgentStructuredOutput raw = true)
    (hsc : jget raw "solveCodePath" = none)
    (hwu : jget raw "writeUpPath" = none) :
    ∃ st' ev outs', handleAgentMessage st sid itemText (some raw) now eid =
        some (st', Output.broadcastEvent sid ev :: outs') ∧
      ev.details.map (fun d => lookupField d "solveCodePath") =
        some (some Json.null) ∧
      ev.details.map (fun d => lookupField d "writeUpPath") =
        some (some Json.null) := by
  have hp : parseAgentStructuredOutput (some raw) = some raw := by
    simp [parseAgentStructuredOutput, hvalid]
  rw [handleAgentMessage_eq_parsed st sid itemText (some raw) now eid s raw hp hs]
  refine ⟨_, _, _, rfl, ?_, ?_⟩
  · show some (lookupField (agentDetailPayload raw) "solveCodePath") =
      some (some Json.null)
    rw [agentDetailPayload_solveCodePath, hsc]
    rfl
  · show some (lookupField (agentDetailPayload raw) "writeUpPath") =
      some (some Json.null)
    rw [agentDetailPayload_writeUpPath, hwu]
    rfl

theorem claim_solveCodePath_null_witness :
    isAgentStructuredOutput structuredSolved = true ∧
    jget structuredSolved "solveCodePath" = none ∧
    (∃ st' ev outs', handleAgentMessage stateRunLive "m1" "body"
        (some structuredSolved) 2 "e8" =
        some (st', Output.broadcastEvent "m1" ev :: outs') ∧
      ev.details.map (fun d => lookupField d "solveCodePath") =
        some (some Json.null) ∧
      ev.details.map (fun d => lookupField d "writeUpPath") =
        some (some Json.null)) :=
  ⟨rfl, rfl, claim_solveCodePath_null stateRunLive "m1" "body" structuredSolved
    2 "e8" sessionRunLive rfl rfl rfl rfl⟩
